import Mathlib

/-!
Shallow embedding of `pkg/filepath/jsonfile_rest.go` from the repository
`steiler/apiserver-runtime-example`: a filesystem-backed REST storage that
persists one JSON file per object and broadcasts watch events to registered
subscribers.

Modelling conventions:
* A filesystem path is the list of its segments (`Path := List String`);
  Go's `filepath.Join` drops empty elements, modelled by `joinPath`.
* The filesystem is a finite map from paths to raw bytes plus the set of
  existing directories (`FS`).  `os.WriteFile` fails when the parent
  directory is missing; `os.Stat` succeeds on files and directories alike.
* The injected `runtime.Codec` is an abstract encode/decode pair
  (`Codec`); encode/decode failures are modelled as `none`.
* `meta.Accessor(obj).GetName()` is the abstract `getName` field.
* `genericapirequest.NamespaceFrom(ctx)` is `Ctx := Option String`
  (`none` means `ok = false`; the value defaults to `""` where the Go code
  discards `ok`).
* Go channels are heap objects; the model keeps a heap of event queues
  (`State.chans`, indexed by allocation order) and the watcher registry
  maps a watcher id to the index of its channel, mirroring
  `map[int]*jsonWatch`.  Queues are unbounded: channel capacity/blocking
  is a concurrency aspect outside this sequential model, and every claim
  below concerns traces with fewer than 10 pending events per channel.
* `filepath.Walk` enumerates files in lexical order; no claim below
  depends on the enumeration order, so the model visits matching files in
  the order of the file list.
* The reflection plumbing (`getListPrt`, `appendItem`, `newFunc`) only
  builds the returned list; the model returns a `List Rec` directly.
-/

namespace JsonfileRest

/-- A filesystem path, as the list of its segments. -/
abbrev Path := List String

/-- Empty path elements, as dropped by Go `filepath.Join`. -/
def dropEmpty : List String → List String
  | [] => []
  | e :: rest => if e = "" then dropEmpty rest else e :: dropEmpty rest

/-- Go `filepath.Join(root, elems...)` for an already-clean `root`. -/
def joinPath (root : Path) (elems : List String) : Path :=
  root ++ dropEmpty elems

/-- Go `watch.EventType`: the three event kinds produced by this store. -/
inductive EventType
  | added
  | modified
  | deleted
deriving DecidableEq, Repr

/-- Go `watch.Event`: an event type together with the affected object. -/
structure Event (Rec : Type) where
  type : EventType
  object : Rec
deriving DecidableEq, Repr

/-- The injected `runtime.Codec`: an encoder/decoder pair for records.
`none` models an encode or decode error. -/
structure Codec (Rec Bytes : Type) where
  encode : Rec → Option Bytes
  decode : Bytes → Option Rec

/-- The immutable configuration of a `filepathREST` store: codec, root
directory, namespacing flag, and the accessor extracting an object's name
(`meta.Accessor(obj).GetName()`). -/
structure StoreCfg (Rec Bytes : Type) where
  codec : Codec Rec Bytes
  objRootPath : Path
  isNamespaced : Bool
  getName : Rec → String

/-- The namespace carried by the request context:
`genericapirequest.NamespaceFrom(ctx)` returns `(ns, ok)`; `none` models
`ok = false`, in which case the Go code that ignores `ok` sees `ns = ""`. -/
abbrev Ctx := Option String

/-- The filesystem: a finite map from file paths to contents, plus the set
of existing directories. -/
structure FS (Bytes : Type) where
  files : List (Path × Bytes)
  dirs : List Path
deriving DecidableEq

/-- Look up the contents of the file at `p` (first matching entry). -/
def lookupFile {Bytes : Type} : List (Path × Bytes) → Path → Option Bytes
  | [], _ => none
  | (q, b) :: rest, p => if q = p then some b else lookupFile rest p

/-- Go `os.WriteFile` on the file map: overwrite the entry at `p`, or append
a fresh one. -/
def setFile {Bytes : Type} : List (Path × Bytes) → Path → Bytes → List (Path × Bytes)
  | [], p, b => [(p, b)]
  | (q, c) :: rest, p, b => if q = p then (p, b) :: rest else (q, c) :: setFile rest p b

/-- Go `os.Remove` on the file map: drop the entry at `p`. -/
def eraseFile {Bytes : Type} : List (Path × Bytes) → Path → List (Path × Bytes)
  | [], _ => []
  | (q, c) :: rest, p => if q = p then eraseFile rest p else (q, c) :: eraseFile rest p

/-- Membership of a path in a directory list. -/
def memPath : List Path → Path → Bool
  | [], _ => false
  | d :: ds, p => if d = p then true else memPath ds p

/-- All nonempty ancestors of a path, the path itself included; these are
the directories `os.MkdirAll` guarantees to exist. -/
def ancestors (p : Path) : List Path :=
  (List.range p.length).map (fun i => p.take (i + 1))

/-- Go `os.MkdirAll(p)`: record `p` and all its ancestors as directories. -/
def mkdirAll {Bytes : Type} (fs : FS Bytes) (p : Path) : FS Bytes :=
  { fs with dirs := ancestors p ++ fs.dirs }

/-- Go helper `exists(path)`: `os.Stat` succeeds, i.e. a file or a
directory is present at the path. -/
def statExists {Bytes : Type} (fs : FS Bytes) (p : Path) : Bool :=
  (lookupFile fs.files p).isSome || memPath fs.dirs p

/-- Go helper `ensureDir`: create the directory unless something already
exists at its path.  (`os.MkdirAll` failures are not modelled; no claim
concerns them.) -/
def ensureDir {Bytes : Type} (fs : FS Bytes) (p : Path) : FS Bytes :=
  if statExists fs p then fs else mkdirAll fs p

/-- Store-level errors, named after the values the Go code returns.
`errFileNotExists` is the sentinel `ErrFileNotExists` (which, despite its
name, `Create` returns when the target file already exists); `notFound`
is `apierrors.NewNotFound`; `badRequest` is `apierrors.NewBadRequest`;
`validation` carries a validation callback's rejection verbatim;
`updatedObjectErr` is an error from `objInfo.UpdatedObject`; `walkFailed`
is `fmt.Errorf("failed walking filepath %v", dirname)`; `backendFault`
stands for any other filesystem or encoder error surfaced verbatim. -/
inductive Err
  | errFileNotExists
  | errNamespaceNotExists
  | notFound (name : String)
  | badRequest (msg : String)
  | validation (msg : String)
  | updatedObjectErr (msg : String)
  | walkFailed (dir : Path)
  | backendFault (op : String)
deriving DecidableEq, Repr

/-- Failure modes of `read`: the file is absent ("no such file or
directory") or its contents do not decode. -/
inductive ReadErr
  | enoent
  | decodeErr
deriving DecidableEq, Repr

/-- Go `write(encoder, path, obj)`: encode the object and `os.WriteFile`
it.  `os.WriteFile` fails when a directory sits at the target path or the
parent directory is missing. -/
def write {Rec Bytes : Type} (codec : Codec Rec Bytes) (fs : FS Bytes) (p : Path)
    (obj : Rec) : Except Err (FS Bytes) :=
  match codec.encode obj with
  | none => .error (.backendFault "encode")
  | some b =>
    if memPath fs.dirs p then .error (.backendFault "writefile")
    else if memPath fs.dirs p.dropLast then .ok { fs with files := setFile fs.files p b }
    else .error (.backendFault "writefile")

/-- Go `read(decoder, path, newFunc)`: `os.ReadFile` then decode. -/
def readF {Rec Bytes : Type} (codec : Codec Rec Bytes) (fs : FS Bytes) (p : Path) :
    Except ReadErr Rec :=
  match lookupFile fs.files p with
  | none => .error .enoent
  | some b =>
    match codec.decode b with
    | none => .error .decodeErr
    | some o => .ok o

/-- The store's mutable state: the filesystem, the heap of watch channels
(index = allocation order, each holding its queue of pending events,
oldest first), and the watcher registry `map[int]*jsonWatch`, modelled as
an association list from watcher id to channel index. -/
structure State (Rec Bytes : Type) where
  fs : FS Bytes
  chans : List (List (Event Rec))
  watchers : List (Nat × Nat)
deriving DecidableEq

/-- Go `jsonWatch`: the handle returned by `Watch` — the id used as registry
key and (a reference to) its event channel. -/
structure JsonWatch where
  id : Nat
  ch : Nat
deriving DecidableEq, Repr

/-- Go map insertion `m[k] = v`: replaces the entry at `k` if present. -/
def mapInsert : List (Nat × Nat) → Nat → Nat → List (Nat × Nat)
  | [], k, v => [(k, v)]
  | (k1, v1) :: rest, k, v =>
    if k1 = k then (k, v) :: rest else (k1, v1) :: mapInsert rest k v

/-- Go map deletion `delete(m, k)`. -/
def mapDelete : List (Nat × Nat) → Nat → List (Nat × Nat)
  | [], _ => []
  | (k1, v1) :: rest, k => if k1 = k then mapDelete rest k else (k1, v1) :: mapDelete rest k

/-- Send an event on the channel at index `cid` (channel references held
by the registry are always in range in reachable states). -/
def enqueue {Rec : Type} (chans : List (List (Event Rec))) (cid : Nat)
    (ev : Event Rec) : List (List (Event Rec)) :=
  chans.set cid (chans.getD cid [] ++ [ev])

/-- Deliver one event to every registered watcher's channel.  Go map
iteration order is unspecified, but each registry entry owns a distinct
channel, so the sends commute; the model folds in registry order. -/
def sendAll {Rec : Type} (watchers : List (Nat × Nat)) (chans : List (List (Event Rec)))
    (ev : Event Rec) : List (List (Event Rec)) :=
  watchers.foldl (fun cs w => enqueue cs w.2 ev) chans

/-- Go `notifyWatchers`: broadcast one event to every registered watcher. -/
def notifyWatchers {Rec Bytes : Type} (s : State Rec Bytes) (ev : Event Rec) :
    State Rec Bytes :=
  { s with chans := sendAll s.watchers s.chans ev }

/-- Go `objectFileName`: `root/[ns/]name.json` where `ns` is the context
namespace, defaulted to `""` (and then dropped by `Join`) when absent. -/
def objectFileName {Rec Bytes : Type} (cfg : StoreCfg Rec Bytes) (ctx : Ctx)
    (name : String) : Path :=
  if cfg.isNamespaced then
    joinPath cfg.objRootPath [ctx.getD "", name ++ ".json"]
  else
    joinPath cfg.objRootPath [name ++ ".json"]

/-- Go `objectDirName`: the directory a List/Watch/DeleteCollection walks. -/
def objectDirName {Rec Bytes : Type} (cfg : StoreCfg Rec Bytes) (ctx : Ctx) : Path :=
  if cfg.isNamespaced then
    joinPath cfg.objRootPath [ctx.getD ""]
  else
    cfg.objRootPath

/-- Go `Get`: read and decode the file; a missing file is normalized to
`NotFound`, any other read failure to `BadRequest`. -/
def Get {Rec Bytes : Type} (cfg : StoreCfg Rec Bytes) (ctx : Ctx) (name : String)
    (fs : FS Bytes) : Except Err Rec :=
  match readF cfg.codec fs (objectFileName cfg ctx name) with
  | .ok o => .ok o
  | .error .enoent => .error (.notFound name)
  | .error .decodeErr => .error (.badRequest "decode")

/-- Proper-ancestry test: `underDir d p` holds when `p` lies strictly
below directory `d`. -/
def underDir : Path → Path → Bool
  | [], [] => false
  | [], _ :: _ => true
  | _ :: _, [] => false
  | a :: ds, b :: ps => if a = b then underDir ds ps else false

/-- Go `strings.HasSuffix` on the underlying character lists. -/
def strHasSuffix (s suf : String) : Bool :=
  decide (suf.data.length ≤ s.data.length) &&
    decide (s.data.drop (s.data.length - suf.data.length) = suf.data)

/-- Does the last path segment carry the `.json` suffix
(`strings.HasSuffix(info.Name(), ".json")`)? -/
def isJsonName (p : Path) : Bool :=
  match p.getLast? with
  | none => false
  | some s => strHasSuffix s ".json"

/-- The regular files `filepath.Walk(d)` offers to the visitor of
`visitDir`: files strictly below `d` whose name ends in `.json`. -/
def filesUnder {Bytes : Type} (files : List (Path × Bytes)) (d : Path) :
    List (Path × Bytes) :=
  files.filter (fun e => underDir d e.1 && isJsonName e.1)

/-- Decode every visited file; the first decode failure aborts the walk,
as `visitDir` propagates the error out of `filepath.Walk`. -/
def decodeAll {Rec Bytes : Type} (codec : Codec Rec Bytes) :
    List (Path × Bytes) → Except Err (List Rec)
  | [] => .ok []
  | (_, b) :: rest =>
    match codec.decode b with
    | none => .error (.backendFault "decode")
    | some o =>
      match decodeAll codec rest with
      | .error e => .error e
      | .ok l => .ok (o :: l)

/-- Go `visitDir` as used by `List`/`Watch`: walk the directory (failing as
`filepath.Walk` does when it does not exist) and decode every `.json`
file under it. -/
def visitDirRead {Rec Bytes : Type} (codec : Codec Rec Bytes) (fs : FS Bytes)
    (d : Path) : Except Err (List Rec) :=
  if memPath fs.dirs d then decodeAll codec (filesUnder fs.files d)
  else .error (.backendFault "lstat")

/-- Go `List`: walk the scope directory and collect every decoded object;
any walk failure is wrapped as `failed walking filepath`.  (Named
`ListOp` because `List` is taken in Lean.) -/
def ListOp {Rec Bytes : Type} (cfg : StoreCfg Rec Bytes) (ctx : Ctx)
    (s : State Rec Bytes) : Except Err (List Rec) :=
  match visitDirRead cfg.codec s.fs (objectDirName cfg ctx) with
  | .error _ => .error (.walkFailed (objectDirName cfg ctx))
  | .ok l => .ok l

/-- Run an optional single-object validation callback
(`createValidation` / `deleteValidation`); `none` models a `nil`
callback and an accepted object alike. -/
def runValidate1 {Rec : Type} (v : Option (Ctx → Rec → Option String)) (ctx : Ctx)
    (obj : Rec) : Option String :=
  match v with
  | none => none
  | some f => f ctx obj

/-- Run an optional update validation callback (new object, old object). -/
def runValidate2 {Rec : Type} (v : Option (Ctx → Rec → Rec → Option String)) (ctx : Ctx)
    (newObj oldObj : Rec) : Option String :=
  match v with
  | none => none
  | some f => f ctx newObj oldObj

/-- The namespace block shared by `Create` and `Update`: for a namespaced
store, fail with `ErrNamespaceNotExists` when the context carries no
namespace, otherwise ensure the namespace directory. -/
def nsEnsure {Rec Bytes : Type} (cfg : StoreCfg Rec Bytes) (ctx : Ctx)
    (s : State Rec Bytes) : Except Err (State Rec Bytes) :=
  if cfg.isNamespaced then
    match ctx with
    | none => .error .errNamespaceNotExists
    | some ns => .ok { s with fs := ensureDir s.fs (joinPath cfg.objRootPath [ns]) }
  else .ok s

/-- The tail of `Create` after validation and the namespace block:
existence probe, write, broadcast `Added`. -/
def createPost {Rec Bytes : Type} (cfg : StoreCfg Rec Bytes) (ctx : Ctx) (obj : Rec)
    (s : State Rec Bytes) : Except Err Rec × State Rec Bytes :=
  if statExists s.fs (objectFileName cfg ctx (cfg.getName obj)) then
    (.error .errFileNotExists, s)
  else
    match write cfg.codec s.fs (objectFileName cfg ctx (cfg.getName obj)) obj with
    | .error e => (.error e, s)
    | .ok fs1 => (.ok obj, notifyWatchers { s with fs := fs1 } ⟨.added, obj⟩)

/-- Go `Create`: validation, namespace block, existence probe, write,
broadcast `Added`. -/
def Create {Rec Bytes : Type} (cfg : StoreCfg Rec Bytes) (ctx : Ctx) (obj : Rec)
    (createValidation : Option (Ctx → Rec → Option String))
    (s : State Rec Bytes) : Except Err Rec × State Rec Bytes :=
  match runValidate1 createValidation ctx obj with
  | some msg => (.error (.validation msg), s)
  | none =>
    match nsEnsure cfg ctx s with
    | .error e => (.error e, s)
    | .ok s1 => createPost cfg ctx obj s1

/-- The body of `Update` after the initial `Get`: namespace block, the
`objInfo.UpdatedObject` call (receiving the old object, `none` when the
`Get` failed), then either the create path (create validation, write,
`Added`, `created = true`) or the update path (update validation, write,
`Modified`, `created = false`). -/
def updateBody {Rec Bytes : Type} (cfg : StoreCfg Rec Bytes) (ctx : Ctx) (name : String)
    (objInfo : Option Rec → Except String Rec)
    (createValidation : Option (Ctx → Rec → Option String))
    (updateValidation : Option (Ctx → Rec → Rec → Option String))
    (oldObj : Option Rec) (s : State Rec Bytes) :
    Except Err (Rec × Bool) × State Rec Bytes :=
  match nsEnsure cfg ctx s with
  | .error e => (.error e, s)
  | .ok s1 =>
    match objInfo oldObj with
    | .error msg => (.error (.updatedObjectErr msg), s1)
    | .ok upd =>
      match oldObj with
      | none =>
        match runValidate1 createValidation ctx upd with
        | some msg => (.error (.validation msg), s1)
        | none =>
          match write cfg.codec s1.fs (objectFileName cfg ctx name) upd with
          | .error e => (.error e, s1)
          | .ok fs1 => (.ok (upd, true), notifyWatchers { s1 with fs := fs1 } ⟨.added, upd⟩)
      | some old =>
        match runValidate2 updateValidation ctx upd old with
        | some msg => (.error (.validation msg), s1)
        | none =>
          match write cfg.codec s1.fs (objectFileName cfg ctx name) upd with
          | .error e => (.error e, s1)
          | .ok fs1 => (.ok (upd, false), notifyWatchers { s1 with fs := fs1 } ⟨.modified, upd⟩)

/-- Go `Update`: read the current object; a failed read is an error unless
`forceAllowCreate`, in which case the create path runs with no old
object. -/
def Update {Rec Bytes : Type} (cfg : StoreCfg Rec Bytes) (ctx : Ctx) (name : String)
    (objInfo : Option Rec → Except String Rec)
    (createValidation : Option (Ctx → Rec → Option String))
    (updateValidation : Option (Ctx → Rec → Rec → Option String))
    (forceAllowCreate : Bool) (s : State Rec Bytes) :
    Except Err (Rec × Bool) × State Rec Bytes :=
  match Get cfg ctx name s.fs with
  | .error e =>
    if forceAllowCreate then
      updateBody cfg ctx name objInfo createValidation updateValidation none s
    else (.error e, s)
  | .ok old => updateBody cfg ctx name objInfo createValidation updateValidation (some old) s

/-- Go `os.Remove` of an object file.  (`Delete` only reaches it after a
successful `Get`, so the entry is present; directory removal is
unreachable here.) -/
def removeF {Bytes : Type} (fs : FS Bytes) (p : Path) : Except Err (FS Bytes) :=
  if (lookupFile fs.files p).isSome then .ok { fs with files := eraseFile fs.files p }
  else .error (.backendFault "remove")

/-- Go `Delete`: existence probe, read the old object, delete validation,
remove the file, broadcast `Deleted`, return the old object. -/
def Delete {Rec Bytes : Type} (cfg : StoreCfg Rec Bytes) (ctx : Ctx) (name : String)
    (deleteValidation : Option (Ctx → Rec → Option String))
    (s : State Rec Bytes) : Except Err (Rec × Bool) × State Rec Bytes :=
  if statExists s.fs (objectFileName cfg ctx name) then
    match Get cfg ctx name s.fs with
    | .error e => (.error e, s)
    | .ok old =>
      match runValidate1 deleteValidation ctx old with
      | some msg => (.error (.validation msg), s)
      | none =>
        match removeF s.fs (objectFileName cfg ctx name) with
        | .error e => (.error e, s)
        | .ok fs1 => (.ok (old, true), notifyWatchers { s with fs := fs1 } ⟨.deleted, old⟩)
  else (.error .errFileNotExists, s)

/-- The visitor loop of `DeleteCollection`: each visited file is decoded
(a decode failure aborts the walk before removing that file), then
removed (`_ = os.Remove(path)`, error ignored) and its old value
collected. -/
def deleteVisit {Rec Bytes : Type} (codec : Codec Rec Bytes) :
    List (Path × Bytes) → FS Bytes → Except Err (List Rec) × FS Bytes
  | [], fs => (.ok [], fs)
  | (p, b) :: rest, fs =>
    match codec.decode b with
    | none => (.error (.backendFault "decode"), fs)
    | some o =>
      let fs1 := { fs with files := eraseFile fs.files p }
      match deleteVisit codec rest fs1 with
      | (.error e, fs2) => (.error e, fs2)
      | (.ok l, fs2) => (.ok (o :: l), fs2)

/-- Go `DeleteCollection`: walk the scope directory, removing every visited
file and returning the pre-deletion values.  Note: no event is
broadcast. -/
def DeleteCollection {Rec Bytes : Type} (cfg : StoreCfg Rec Bytes) (ctx : Ctx)
    (s : State Rec Bytes) : Except Err (List Rec) × State Rec Bytes :=
  if memPath s.fs.dirs (objectDirName cfg ctx) then
    match deleteVisit cfg.codec (filesUnder s.fs.files (objectDirName cfg ctx)) s.fs with
    | (.error _, fs1) => (.error (.walkFailed (objectDirName cfg ctx)), { s with fs := fs1 })
    | (.ok l, fs1) => (.ok l, { s with fs := fs1 })
  else (.error (.walkFailed (objectDirName cfg ctx)), s)

/-- Go `Watch`: allocate a subscription whose id is the current registry
size, list the scope and preload the channel with one `Added` event per
existing object (the snapshot), then register the subscription. -/
def Watch {Rec Bytes : Type} (cfg : StoreCfg Rec Bytes) (ctx : Ctx)
    (s : State Rec Bytes) : Except Err JsonWatch × State Rec Bytes :=
  match ListOp cfg ctx s with
  | .error e => (.error e, s)
  | .ok items =>
    (.ok ⟨s.watchers.length, s.chans.length⟩,
      { s with
        chans := s.chans ++ [items.map (fun o => ⟨.added, o⟩)],
        watchers := mapInsert s.watchers s.watchers.length s.chans.length })

/-- Go `jsonWatch.Stop`: remove the subscription's id from the registry. -/
def Stop {Rec Bytes : Type} (w : JsonWatch) (s : State Rec Bytes) : State Rec Bytes :=
  { s with watchers := mapDelete s.watchers w.id }

/-! ## Concrete demonstration instances

A store over `Rec = Bytes = String` with the identity codec (so the
round-trip hypothesis of the spec holds definitionally) and an object's
name equal to its value. -/

abbrev DRec := String
abbrev DBytes := String

def demoCodec : Codec DRec DBytes :=
  { encode := fun r => some r, decode := fun b => some b }

/-- Cluster-scoped demo store rooted at `root`. -/
def demoCfgC : StoreCfg DRec DBytes :=
  { codec := demoCodec, objRootPath := ["root"], isNamespaced := false,
    getName := fun r => r }

/-- Namespaced demo store rooted at `root`. -/
def demoCfgN : StoreCfg DRec DBytes :=
  { codec := demoCodec, objRootPath := ["root"], isNamespaced := true,
    getName := fun r => r }

/-- The state right after `NewFilepathREST`: the root directory exists,
no files, no watchers. -/
def state0 : State DRec DBytes :=
  { fs := { files := [], dirs := [["root"]] }, chans := [], watchers := [] }

/-! ## Helper lemmas -/

theorem lookupFile_setFile_self {Bytes : Type} (files : List (Path × Bytes)) (p : Path)
    (b : Bytes) : lookupFile (setFile files p b) p = some b := by
  induction files with
  | nil => simp [setFile, lookupFile]
  | cons e rest ih =>
    obtain ⟨q, c⟩ := e
    by_cases h : q = p
    · subst h
      simp [setFile, lookupFile]
    · simp only [setFile, lookupFile, if_neg h]
      exact ih

theorem lookupFile_eraseFile_self {Bytes : Type} (files : List (Path × Bytes)) (p : Path) :
    lookupFile (eraseFile files p) p = none := by
  induction files with
  | nil => simp [eraseFile, lookupFile]
  | cons e rest ih =>
    obtain ⟨q, c⟩ := e
    by_cases h : q = p
    · subst h
      simpa [eraseFile] using ih
    · simp only [eraseFile, lookupFile, if_neg h]
      exact ih

theorem ensureDir_files {Bytes : Type} (fs : FS Bytes) (p : Path) :
    (ensureDir fs p).files = fs.files := by
  unfold ensureDir mkdirAll
  split <;> rfl

/-- Lemma: `nsEnsure` can only succeed, and only touches the directory set. -/
theorem nsEnsure_ok_parts {Rec Bytes : Type} {cfg : StoreCfg Rec Bytes} {ctx : Ctx}
    {s s1 : State Rec Bytes} (h : nsEnsure cfg ctx s = .ok s1) :
    s1.fs.files = s.fs.files ∧ s1.chans = s.chans ∧ s1.watchers = s.watchers := by
  unfold nsEnsure at h
  split at h
  · match ctx with
    | none => exact absurd h (by simp)
    | some ns =>
      simp only [Except.ok.injEq] at h
      subst h
      exact ⟨ensureDir_files _ _, rfl, rfl⟩
  · simp only [Except.ok.injEq] at h
    subst h
    exact ⟨rfl, rfl, rfl⟩

/-- When the namespace is available, `nsEnsure` succeeds. -/
theorem nsEnsure_ok {Rec Bytes : Type} (cfg : StoreCfg Rec Bytes) (ctx : Ctx)
    (s : State Rec Bytes) (hns : cfg.isNamespaced = true → ∃ ns, ctx = some ns) :
    ∃ s1, nsEnsure cfg ctx s = .ok s1 ∧ s1.fs.files = s.fs.files ∧
      s1.chans = s.chans ∧ s1.watchers = s.watchers := by
  unfold nsEnsure
  by_cases h : cfg.isNamespaced = true
  · obtain ⟨ns, hctx⟩ := hns h
    subst hctx
    rw [if_pos h]
    exact ⟨_, rfl, ensureDir_files _ _, rfl, rfl⟩
  · rw [if_neg h]
    exact ⟨s, rfl, rfl, rfl, rfl⟩

theorem runValidate1_none {Rec : Type} {cv : Option (Ctx → Rec → Option String)}
    {ctx : Ctx} {obj : Rec} (hcv : ∀ f, cv = some f → f ctx obj = none) :
    runValidate1 cv ctx obj = none := by
  cases cv with
  | none => rfl
  | some f => exact hcv f rfl

/-- A successful `write` stores exactly the encoded bytes and leaves the
directory set alone. -/
theorem write_ok_files {Rec Bytes : Type} {codec : Codec Rec Bytes} {fs : FS Bytes}
    {p : Path} {obj : Rec} {fs1 : FS Bytes} (h : write codec fs p obj = .ok fs1) :
    ∃ b, codec.encode obj = some b ∧ fs1.files = setFile fs.files p b ∧
      fs1.dirs = fs.dirs := by
  unfold write at h
  cases he : codec.encode obj with
  | none =>
    rw [he] at h
    cases h
  | some b =>
    rw [he] at h
    dsimp only at h
    by_cases h1 : memPath fs.dirs p = true
    · rw [if_pos h1] at h
      cases h
    · rw [if_neg h1] at h
      by_cases h2 : memPath fs.dirs p.dropLast = true
      · rw [if_pos h2] at h
        simp only [Except.ok.injEq] at h
        subst h
        exact ⟨b, rfl, rfl, rfl⟩
      · rw [if_neg h2] at h
        cases h

/-! ## Claims -/

/-- C2: if a file already exists at the target path, `Create` fails with
the already-exists sentinel (the Go value `ErrFileNotExists`, which the
spec's error taxonomy calls `AlreadyExists`) and the stored files — in
particular the record at that key — are unchanged; hence the second of
two successive `Create(k, r)` calls fails and the stored object remains
the first `r`.  Hypotheses: the validation callback (if any) accepts the
object, and for a namespaced store the context carries a namespace. -/
theorem C2_create_on_existing_fails {Rec Bytes : Type} (cfg : StoreCfg Rec Bytes)
    (ctx : Ctx) (obj : Rec) (cv : Option (Ctx → Rec → Option String))
    (s : State Rec Bytes) (b : Bytes)
    (hfile : lookupFile s.fs.files (objectFileName cfg ctx (cfg.getName obj)) = some b)
    (hcv : ∀ f, cv = some f → f ctx obj = none)
    (hns : cfg.isNamespaced = true → ∃ ns, ctx = some ns) :
    (Create cfg ctx obj cv s).1 = .error .errFileNotExists ∧
    (Create cfg ctx obj cv s).2.fs.files = s.fs.files ∧
    (Create cfg ctx obj cv s).2.chans = s.chans := by
  obtain ⟨s1, hok, hfiles, hchans, hwat⟩ := nsEnsure_ok cfg ctx s hns
  have hex : statExists s1.fs (objectFileName cfg ctx (cfg.getName obj)) = true := by
    unfold statExists
    rw [hfiles, hfile]
    simp
  unfold Create
  rw [runValidate1_none hcv, hok]
  dsimp only
  unfold createPost
  rw [if_pos hex]
  exact ⟨rfl, hfiles, hchans⟩

/-- Witness for C2: in the cluster-scoped demo store, creating `"x"`
twice makes the second call fail with the sentinel while the file map
still holds the first record. -/
theorem C2_create_on_existing_fails_w :
    (Create demoCfgC none "x" none (Create demoCfgC none "x" none state0).2).1
        = .error .errFileNotExists ∧
    (Create demoCfgC none "x" none (Create demoCfgC none "x" none state0).2).2.fs.files
        = (Create demoCfgC none "x" none state0).2.fs.files ∧
    (Create demoCfgC none "x" none (Create demoCfgC none "x" none state0).2).2.chans
        = (Create demoCfgC none "x" none state0).2.chans :=
  C2_create_on_existing_fails demoCfgC none "x" none
    (Create demoCfgC none "x" none state0).2 "x" (by rfl)
    (fun f h => by cases h) (fun h => absurd h (by decide))

/-- C3: with a codec whose decode is a left inverse of its encode, a
successful `Create(k, r)` followed by `Get(k)` returns `r`. -/
theorem C3_create_get_roundtrip {Rec Bytes : Type} (cfg : StoreCfg Rec Bytes)
    (ctx : Ctx) (obj r : Rec) (cv : Option (Ctx → Rec → Option String))
    (s : State Rec Bytes)
    (hrt : ∀ x bx, cfg.codec.encode x = some bx → cfg.codec.decode bx = some x)
    (hsucc : (Create cfg ctx obj cv s).1 = .ok r) :
    Get cfg ctx (cfg.getName obj) (Create cfg ctx obj cv s).2.fs = .ok obj := by
  unfold Create at hsucc ⊢
  cases hval : runValidate1 cv ctx obj with
  | some msg =>
    rw [hval] at hsucc
    cases hsucc
  | none =>
    rw [hval] at hsucc
    cases hnse : nsEnsure cfg ctx s with
    | error e =>
      rw [hnse] at hsucc
      cases hsucc
    | ok s1 =>
      rw [hnse] at hsucc
      dsimp only at hsucc ⊢
      unfold createPost at hsucc ⊢
      by_cases hex : statExists s1.fs (objectFileName cfg ctx (cfg.getName obj)) = true
      · rw [if_pos hex] at hsucc
        cases hsucc
      · rw [if_neg hex] at hsucc ⊢
        cases hw : write cfg.codec s1.fs (objectFileName cfg ctx (cfg.getName obj)) obj with
        | error e =>
          rw [hw] at hsucc
          cases hsucc
        | ok fs1 =>
          obtain ⟨bx, henc, hf, _⟩ := write_ok_files hw
          show Get cfg ctx (cfg.getName obj) fs1 = .ok obj
          unfold Get readF
          simp only [hf, lookupFile_setFile_self, hrt obj bx henc]

/-- Witness for C3: creating `"x"` in the fresh demo store and reading it
back yields `"x"`. -/
theorem C3_create_get_roundtrip_w :
    Get demoCfgC none "x" (Create demoCfgC none "x" none state0).2.fs = .ok "x" :=
  C3_create_get_roundtrip demoCfgC none "x" "x" none state0
    (fun x bx h => by cases h; rfl) (by rfl)

/-- C8: `Delete` on a nonexistent key fails with the not-found sentinel
(the Go value `ErrFileNotExists`, here genuinely meaning the file is
absent) and has no side effect at all; `Delete` on an existing key whose
contents decode (and whose delete validation, if any, accepts) removes
exactly that file, broadcasts one `Deleted` event carrying the
pre-deletion object to every registered watcher, returns that object,
and a subsequent `Get` fails with `NotFound`. -/
theorem C8_delete_semantics {Rec Bytes : Type} (cfg : StoreCfg Rec Bytes) (ctx : Ctx)
    (name : String) (dv : Option (Ctx → Rec → Option String)) (s : State Rec Bytes) :
    (statExists s.fs (objectFileName cfg ctx name) = false →
      Delete cfg ctx name dv s = (.error .errFileNotExists, s)) ∧
    (∀ b old, lookupFile s.fs.files (objectFileName cfg ctx name) = some b →
      cfg.codec.decode b = some old →
      (∀ f, dv = some f → f ctx old = none) →
      Delete cfg ctx name dv s =
        (.ok (old, true),
          { fs := { files := eraseFile s.fs.files (objectFileName cfg ctx name),
                    dirs := s.fs.dirs },
            chans := sendAll s.watchers s.chans ⟨.deleted, old⟩,
            watchers := s.watchers }) ∧
      Get cfg ctx name
          { files := eraseFile s.fs.files (objectFileName cfg ctx name),
            dirs := s.fs.dirs } = .error (.notFound name)) := by
  constructor
  · intro h
    unfold Delete
    rw [if_neg (by rw [h]; exact Bool.false_ne_true)]
  · intro b old hb hdec hdv
    have hex : statExists s.fs (objectFileName cfg ctx name) = true := by
      unfold statExists
      rw [hb]
      simp
    have hget : Get cfg ctx name s.fs = .ok old := by
      unfold Get readF
      simp only [hb, hdec]
    constructor
    · unfold Delete
      rw [if_pos hex, hget]
      dsimp only
      rw [runValidate1_none hdv]
      dsimp only
      unfold removeF
      rw [if_pos (by rw [hb]; rfl)]
      rfl
    · unfold Get readF
      rw [lookupFile_eraseFile_self]

/-- Witness for C8: in the demo store, deleting the missing key `"y"`
fails without side effects, while deleting the existing `"x"` returns it
and the following `Get` is `NotFound`. -/
theorem C8_delete_semantics_w :
    Delete demoCfgC none "y" none state0 = (.error .errFileNotExists, state0) ∧
    (Delete demoCfgC none "x" none (Create demoCfgC none "x" none state0).2).1
        = .ok ("x", true) ∧
    Get demoCfgC none "x"
        (Delete demoCfgC none "x" none (Create demoCfgC none "x" none state0).2).2.fs
        = .error (.notFound "x") := by
  have h2 := (C8_delete_semantics demoCfgC none "x" none
    (Create demoCfgC none "x" none state0).2).2 "x" "x" (by rfl) (by rfl)
    (fun f h => by cases h)
  refine ⟨(C8_delete_semantics demoCfgC none "y" none state0).1 (by rfl), ?_, ?_⟩
  · rw [h2.1]
  · rw [h2.1]
    exact h2.2

/-- A failing `createPost` leaves the state it received untouched. -/
theorem createPost_error_state {Rec Bytes : Type} {cfg : StoreCfg Rec Bytes} {ctx : Ctx}
    {obj : Rec} {s : State Rec Bytes} {e : Err}
    (h : (createPost cfg ctx obj s).1 = .error e) : (createPost cfg ctx obj s).2 = s := by
  unfold createPost at h ⊢
  by_cases hex : statExists s.fs (objectFileName cfg ctx (cfg.getName obj)) = true
  · rw [if_pos hex]
  · rw [if_neg hex] at h ⊢
    cases hw : write cfg.codec s.fs (objectFileName cfg ctx (cfg.getName obj)) obj with
    | error e2 => rfl
    | ok fs1 =>
      rw [hw] at h
      cases h

/-- A failing `Create` never touches the watch channels. -/
theorem Create_error_chans {Rec Bytes : Type} {cfg : StoreCfg Rec Bytes} {ctx : Ctx}
    {obj : Rec} {cv : Option (Ctx → Rec → Option String)} {s : State Rec Bytes} {e : Err}
    (h : (Create cfg ctx obj cv s).1 = .error e) :
    (Create cfg ctx obj cv s).2.chans = s.chans := by
  unfold Create at h ⊢
  cases hval : runValidate1 cv ctx obj with
  | some msg => rfl
  | none =>
    rw [hval] at h
    cases hnse : nsEnsure cfg ctx s with
    | error e2 => rfl
    | ok s1 =>
      rw [hnse] at h
      dsimp only at h ⊢
      rw [createPost_error_state h]
      exact (nsEnsure_ok_parts hnse).2.1

/-- A failing `updateBody` never touches the watch channels. -/
theorem updateBody_error_chans {Rec Bytes : Type} {cfg : StoreCfg Rec Bytes} {ctx : Ctx}
    {name : String} {objInfo : Option Rec → Except String Rec}
    {cv : Option (Ctx → Rec → Option String)}
    {uv : Option (Ctx → Rec → Rec → Option String)}
    {oldObj : Option Rec} {s : State Rec Bytes} {e : Err}
    (h : (updateBody cfg ctx name objInfo cv uv oldObj s).1 = .error e) :
    (updateBody cfg ctx name objInfo cv uv oldObj s).2.chans = s.chans := by
  unfold updateBody at h ⊢
  cases hnse : nsEnsure cfg ctx s with
  | error e2 => rfl
  | ok s1 =>
    rw [hnse] at h
    dsimp only at h ⊢
    have hch := (nsEnsure_ok_parts hnse).2.1
    cases hoi : objInfo oldObj with
    | error msg => exact hch
    | ok upd =>
      rw [hoi] at h
      dsimp only at h ⊢
      cases oldObj with
      | none =>
        dsimp only at h ⊢
        cases hv : runValidate1 cv ctx upd with
        | some msg => exact hch
        | none =>
          rw [hv] at h
          dsimp only at h ⊢
          cases hw : write cfg.codec s1.fs (objectFileName cfg ctx name) upd with
          | error e2 => exact hch
          | ok fs1 =>
            rw [hw] at h
            cases h
      | some old =>
        dsimp only at h ⊢
        cases hv : runValidate2 uv ctx upd old with
        | some msg => exact hch
        | none =>
          rw [hv] at h
          dsimp only at h ⊢
          cases hw : write cfg.codec s1.fs (objectFileName cfg ctx name) upd with
          | error e2 => exact hch
          | ok fs1 =>
            rw [hw] at h
            cases h

/-- A failing `Update` never touches the watch channels. -/
theorem Update_error_chans {Rec Bytes : Type} {cfg : StoreCfg Rec Bytes} {ctx : Ctx}
    {name : String} {objInfo : Option Rec → Except String Rec}
    {cv : Option (Ctx → Rec → Option String)}
    {uv : Option (Ctx → Rec → Rec → Option String)}
    {fac : Bool} {s : State Rec Bytes} {e : Err}
    (h : (Update cfg ctx name objInfo cv uv fac s).1 = .error e) :
    (Update cfg ctx name objInfo cv uv fac s).2.chans = s.chans := by
  unfold Update at h ⊢
  cases hget : Get cfg ctx name s.fs with
  | error e2 =>
    rw [hget] at h
    dsimp only at h ⊢
    by_cases hfac : fac = true
    · rw [if_pos hfac] at h ⊢
      exact updateBody_error_chans h
    · rw [if_neg hfac]
  | ok old =>
    rw [hget] at h
    dsimp only at h ⊢
    exact updateBody_error_chans h

/-- A failing `Delete` never touches the watch channels. -/
theorem Delete_error_chans {Rec Bytes : Type} {cfg : StoreCfg Rec Bytes} {ctx : Ctx}
    {name : String} {dv : Option (Ctx → Rec → Option String)} {s : State Rec Bytes}
    {e : Err} (h : (Delete cfg ctx name dv s).1 = .error e) :
    (Delete cfg ctx name dv s).2.chans = s.chans := by
  unfold Delete at h ⊢
  by_cases hex : statExists s.fs (objectFileName cfg ctx name) = true
  · rw [if_pos hex] at h ⊢
    cases hget : Get cfg ctx name s.fs with
    | error e2 => rfl
    | ok old =>
      rw [hget] at h
      dsimp only at h ⊢
      cases hv : runValidate1 dv ctx old with
      | some msg => rfl
      | none =>
        rw [hv] at h
        dsimp only at h ⊢
        cases hrm : removeF s.fs (objectFileName cfg ctx name) with
        | error e2 => rfl
        | ok fs1 =>
          rw [hrm] at h
          cases h
  · rw [if_neg hex]

/-- C9: whenever `Create`, `Update`, or `Delete` returns an error — a
validation rejection, a failed existence/namespace check, a read error,
or a write failure — the watch channels are untouched: subscribers only
observe events of operations that completed successfully. -/
theorem C9_no_broadcast_on_error {Rec Bytes : Type} (cfg : StoreCfg Rec Bytes)
    (ctx : Ctx) (s : State Rec Bytes) :
    (∀ obj cv e, (Create cfg ctx obj cv s).1 = .error e →
      (Create cfg ctx obj cv s).2.chans = s.chans) ∧
    (∀ name objInfo cv uv fac e,
      (Update cfg ctx name objInfo cv uv fac s).1 = .error e →
      (Update cfg ctx name objInfo cv uv fac s).2.chans = s.chans) ∧
    (∀ name dv e, (Delete cfg ctx name dv s).1 = .error e →
      (Delete cfg ctx name dv s).2.chans = s.chans) :=
  ⟨fun _ _ _ h => Create_error_chans h,
   fun _ _ _ _ _ _ h => Update_error_chans h,
   fun _ _ _ h => Delete_error_chans h⟩

/-- A demo state holding one object and one registered watcher with an
empty channel. -/
def c9s : State DRec DBytes :=
  { fs := { files := [(["root", "x.json"], "x")], dirs := [["root"]] },
    chans := [[]], watchers := [(0, 0)] }

/-- Witness for C9: a duplicate `Create`, a missing-key `Update` without
`forceAllowCreate`, and a missing-key `Delete` all fail and leave the one
registered watcher's channel untouched. -/
theorem C9_no_broadcast_on_error_w :
    (Create demoCfgC none "x" none c9s).2.chans = c9s.chans ∧
    (Update demoCfgC none "y" (fun _ => .ok "y") none none false c9s).2.chans
      = c9s.chans ∧
    (Delete demoCfgC none "y" none c9s).2.chans = c9s.chans := by
  obtain ⟨h1, h2, h3⟩ := C9_no_broadcast_on_error demoCfgC none c9s
  exact ⟨h1 "x" none .errFileNotExists (by rfl),
         h2 "y" (fun _ => .ok "y") none none false (.notFound "y") (by rfl),
         h3 "y" none .errFileNotExists (by rfl)⟩

/-- A successful `createPost` performs exactly one broadcast of `Added`
to the watchers registered when it ran. -/
theorem createPost_ok_chans {Rec Bytes : Type} {cfg : StoreCfg Rec Bytes} {ctx : Ctx}
    {obj r : Rec} {s : State Rec Bytes}
    (h : (createPost cfg ctx obj s).1 = .ok r) :
    (createPost cfg ctx obj s).2.chans = sendAll s.watchers s.chans ⟨.added, obj⟩ ∧
    (createPost cfg ctx obj s).2.watchers = s.watchers := by
  unfold createPost at h ⊢
  by_cases hex : statExists s.fs (objectFileName cfg ctx (cfg.getName obj)) = true
  · rw [if_pos hex] at h
    cases h
  · rw [if_neg hex] at h ⊢
    cases hw : write cfg.codec s.fs (objectFileName cfg ctx (cfg.getName obj)) obj with
    | error e =>
      rw [hw] at h
      cases h
    | ok fs1 => exact ⟨rfl, rfl⟩

/-- A successful `Create` performs exactly one broadcast of `Added`. -/
theorem Create_ok_chans {Rec Bytes : Type} {cfg : StoreCfg Rec Bytes} {ctx : Ctx}
    {obj r : Rec} {cv : Option (Ctx → Rec → Option String)} {s : State Rec Bytes}
    (h : (Create cfg ctx obj cv s).1 = .ok r) :
    (Create cfg ctx obj cv s).2.chans = sendAll s.watchers s.chans ⟨.added, obj⟩ ∧
    (Create cfg ctx obj cv s).2.watchers = s.watchers := by
  unfold Create at h ⊢
  cases hval : runValidate1 cv ctx obj with
  | some msg =>
    rw [hval] at h
    cases h
  | none =>
    rw [hval] at h
    cases hnse : nsEnsure cfg ctx s with
    | error e =>
      rw [hnse] at h
      cases h
    | ok s1 =>
      rw [hnse] at h
      dsimp only at h ⊢
      obtain ⟨hff, hc, hw⟩ := nsEnsure_ok_parts hnse
      obtain ⟨h1, h2⟩ := createPost_ok_chans h
      rw [h1, h2, hc, hw]
      exact ⟨rfl, rfl⟩

/-- A successful `updateBody` performs exactly one broadcast: `Added`
when it created, `Modified` when it updated. -/
theorem updateBody_ok_chans {Rec Bytes : Type} {cfg : StoreCfg Rec Bytes} {ctx : Ctx}
    {name : String} {objInfo : Option Rec → Except String Rec}
    {cv : Option (Ctx → Rec → Option String)}
    {uv : Option (Ctx → Rec → Rec → Option String)}
    {oldObj : Option Rec} {s : State Rec Bytes} {upd : Rec} {created : Bool}
    (h : (updateBody cfg ctx name objInfo cv uv oldObj s).1 = .ok (upd, created)) :
    (updateBody cfg ctx name objInfo cv uv oldObj s).2.chans
      = sendAll s.watchers s.chans ⟨if created then .added else .modified, upd⟩ ∧
    (updateBody cfg ctx name objInfo cv uv oldObj s).2.watchers = s.watchers := by
  unfold updateBody at h ⊢
  cases hnse : nsEnsure cfg ctx s with
  | error e2 =>
    rw [hnse] at h
    cases h
  | ok s1 =>
    rw [hnse] at h
    dsimp only at h ⊢
    obtain ⟨hff, hc, hwt⟩ := nsEnsure_ok_parts hnse
    cases hoi : objInfo oldObj with
    | error msg =>
      rw [hoi] at h
      cases h
    | ok upd0 =>
      rw [hoi] at h
      dsimp only at h ⊢
      cases oldObj with
      | none =>
        dsimp only at h ⊢
        cases hv : runValidate1 cv ctx upd0 with
        | some msg =>
          rw [hv] at h
          cases h
        | none =>
          rw [hv] at h
          dsimp only at h ⊢
          cases hw : write cfg.codec s1.fs (objectFileName cfg ctx name) upd0 with
          | error e2 =>
            rw [hw] at h
            cases h
          | ok fs1 =>
            rw [hw] at h
            simp only [Except.ok.injEq, Prod.mk.injEq] at h
            obtain ⟨hupd, hcr⟩ := h
            subst hupd
            subst hcr
            rw [hc, hwt] at *
            exact ⟨rfl, rfl⟩
      | some old =>
        dsimp only at h ⊢
        cases hv : runValidate2 uv ctx upd0 old with
        | some msg =>
          rw [hv] at h
          cases h
        | none =>
          rw [hv] at h
          dsimp only at h ⊢
          cases hw : write cfg.codec s1.fs (objectFileName cfg ctx name) upd0 with
          | error e2 =>
            rw [hw] at h
            cases h
          | ok fs1 =>
            rw [hw] at h
            simp only [Except.ok.injEq, Prod.mk.injEq] at h
            obtain ⟨hupd, hcr⟩ := h
            subst hupd
            subst hcr
            rw [hc, hwt] at *
            exact ⟨rfl, rfl⟩

/-- A successful `Update` performs exactly one broadcast. -/
theorem Update_ok_chans {Rec Bytes : Type} {cfg : StoreCfg Rec Bytes} {ctx : Ctx}
    {name : String} {objInfo : Option Rec → Except String Rec}
    {cv : Option (Ctx → Rec → Option String)}
    {uv : Option (Ctx → Rec → Rec → Option String)}
    {fac : Bool} {s : State Rec Bytes} {upd : Rec} {created : Bool}
    (h : (Update cfg ctx name objInfo cv uv fac s).1 = .ok (upd, created)) :
    (Update cfg ctx name objInfo cv uv fac s).2.chans
      = sendAll s.watchers s.chans ⟨if created then .added else .modified, upd⟩ ∧
    (Update cfg ctx name objInfo cv uv fac s).2.watchers = s.watchers := by
  unfold Update at h ⊢
  cases hget : Get cfg ctx name s.fs with
  | error e2 =>
    rw [hget] at h
    dsimp only at h ⊢
    by_cases hfac : fac = true
    · rw [if_pos hfac] at h ⊢
      exact updateBody_ok_chans h
    · rw [if_neg hfac] at h
      cases h
  | ok old =>
    rw [hget] at h
    dsimp only at h ⊢
    exact updateBody_ok_chans h

/-- A successful `Delete` performs exactly one broadcast of `Deleted`
carrying the deleted object. -/
theorem Delete_ok_chans {Rec Bytes : Type} {cfg : StoreCfg Rec Bytes} {ctx : Ctx}
    {name : String} {dv : Option (Ctx → Rec → Option String)} {s : State Rec Bytes}
    {old : Rec} {flag : Bool}
    (h : (Delete cfg ctx name dv s).1 = .ok (old, flag)) :
    (Delete cfg ctx name dv s).2.chans = sendAll s.watchers s.chans ⟨.deleted, old⟩ ∧
    (Delete cfg ctx name dv s).2.watchers = s.watchers := by
  unfold Delete at h ⊢
  by_cases hex : statExists s.fs (objectFileName cfg ctx name) = true
  · rw [if_pos hex] at h ⊢
    cases hget : Get cfg ctx name s.fs with
    | error e2 =>
      rw [hget] at h
      cases h
    | ok old0 =>
      rw [hget] at h
      dsimp only at h ⊢
      cases hv : runValidate1 dv ctx old0 with
      | some msg =>
        rw [hv] at h
        cases h
      | none =>
        rw [hv] at h
        dsimp only at h ⊢
        cases hrm : removeF s.fs (objectFileName cfg ctx name) with
        | error e2 =>
          rw [hrm] at h
          cases h
        | ok fs1 =>
          rw [hrm] at h
          simp only [Except.ok.injEq, Prod.mk.injEq] at h
          obtain ⟨hold, _⟩ := h
          subst hold
          exact ⟨rfl, rfl⟩
  · rw [if_neg hex] at h
    cases h

/-- Lemma: `DeleteCollection` never broadcasts: channels and registry are
untouched regardless of outcome. -/
theorem DeleteCollection_chans {Rec Bytes : Type} (cfg : StoreCfg Rec Bytes) (ctx : Ctx)
    (s : State Rec Bytes) :
    (DeleteCollection cfg ctx s).2.chans = s.chans ∧
    (DeleteCollection cfg ctx s).2.watchers = s.watchers := by
  unfold DeleteCollection
  by_cases hm : memPath s.fs.dirs (objectDirName cfg ctx) = true
  · rw [if_pos hm]
    cases hdv : deleteVisit cfg.codec (filesUnder s.fs.files (objectDirName cfg ctx)) s.fs with
    | mk res fs1 =>
      cases res with
      | error e => exact ⟨rfl, rfl⟩
      | ok l => exact ⟨rfl, rfl⟩
  · rw [if_neg hm]
    exact ⟨rfl, rfl⟩

/-- C1 counterexample: with one object and one registered subscriber, a
successful `DeleteCollection` removes the file but enqueues no `Deleted`
event — the subscriber's channel stays empty, not one event per removed
file as claimed. -/
theorem C1_deleteCollection_counterexample :
    (DeleteCollection demoCfgC none c9s).1 = .ok ["x"] ∧
    (DeleteCollection demoCfgC none c9s).2.fs.files = [] ∧
    (DeleteCollection demoCfgC none c9s).2.chans = [[]] := by
  exact ⟨rfl, rfl, rfl⟩

/-- C1 (amended): every successful `Create`, `Update`, or `Delete`
broadcasts exactly one event — delivered to every subscriber registered
at broadcast time, via a single `sendAll` over the registry — but
`DeleteCollection` broadcasts nothing: files it removes produce no
`Deleted` events. -/
theorem C1_one_event_per_mutation {Rec Bytes : Type} (cfg : StoreCfg Rec Bytes)
    (ctx : Ctx) (s : State Rec Bytes) :
    (∀ obj cv r, (Create cfg ctx obj cv s).1 = .ok r →
      (Create cfg ctx obj cv s).2.chans = sendAll s.watchers s.chans ⟨.added, obj⟩ ∧
      (Create cfg ctx obj cv s).2.watchers = s.watchers) ∧
    (∀ name objInfo cv uv fac upd created,
      (Update cfg ctx name objInfo cv uv fac s).1 = .ok (upd, created) →
      (Update cfg ctx name objInfo cv uv fac s).2.chans
        = sendAll s.watchers s.chans ⟨if created then .added else .modified, upd⟩ ∧
      (Update cfg ctx name objInfo cv uv fac s).2.watchers = s.watchers) ∧
    (∀ name dv old flag, (Delete cfg ctx name dv s).1 = .ok (old, flag) →
      (Delete cfg ctx name dv s).2.chans = sendAll s.watchers s.chans ⟨.deleted, old⟩ ∧
      (Delete cfg ctx name dv s).2.watchers = s.watchers) ∧
    ((DeleteCollection cfg ctx s).2.chans = s.chans ∧
      (DeleteCollection cfg ctx s).2.watchers = s.watchers) :=
  ⟨fun _ _ _ h => Create_ok_chans h,
   fun _ _ _ _ _ _ _ h => Update_ok_chans h,
   fun _ _ _ _ h => Delete_ok_chans h,
   DeleteCollection_chans cfg ctx s⟩

/-- Witness for C1 (amended): on a store with one registered subscriber,
a successful `Create`, `Update`, and `Delete` each append their single
event via `sendAll`, and `DeleteCollection` leaves the channels as they
were. -/
theorem C1_one_event_per_mutation_w :
    (Create demoCfgC none "y" none c9s).2.chans
      = sendAll c9s.watchers c9s.chans ⟨.added, "y"⟩ ∧
    (Update demoCfgC none "x" (fun _ => .ok "x2") none none false c9s).2.chans
      = sendAll c9s.watchers c9s.chans ⟨.modified, "x2"⟩ ∧
    (Delete demoCfgC none "x" none c9s).2.chans
      = sendAll c9s.watchers c9s.chans ⟨.deleted, "x"⟩ ∧
    (DeleteCollection demoCfgC none c9s).2.chans = c9s.chans := by
  obtain ⟨h1, h2, h3, h4⟩ := C1_one_event_per_mutation demoCfgC none c9s
  exact ⟨(h1 "y" none "y" (by rfl)).1,
         (h2 "x" (fun _ => .ok "x2") none none false "x2" false (by rfl)).1,
         (h3 "x" none "x" true (by rfl)).1,
         h4.1⟩

/-- C5: when the scope's `List` yields exactly the objects `a` and `b`,
`Watch` returns a subscription whose freshly allocated channel holds
exactly one `Added` event for `a` and one for `b` (the snapshot), ahead
of any event a later mutation may append, and registers the subscription
under the next id. -/
theorem C5_watch_snapshot {Rec Bytes : Type} (cfg : StoreCfg Rec Bytes) (ctx : Ctx)
    (s : State Rec Bytes) (a b : Rec)
    (hlist : ListOp cfg ctx s = .ok [a, b]) :
    Watch cfg ctx s =
      (.ok ⟨s.watchers.length, s.chans.length⟩,
       { s with
         chans := s.chans ++ [[⟨.added, a⟩, ⟨.added, b⟩]],
         watchers := mapInsert s.watchers s.watchers.length s.chans.length }) := by
  unfold Watch
  rw [hlist]
  rfl

/-- A demo state whose scope holds exactly the two objects `x` and `y`. -/
def c5s : State DRec DBytes :=
  { fs := { files := [(["root", "x.json"], "x"), (["root", "y.json"], "y")],
            dirs := [["root"]] },
    chans := [], watchers := [] }

/-- Witness for C5: watching the demo store that contains `x` and `y`
preloads the new channel with exactly `Added x` then `Added y`. -/
theorem C5_watch_snapshot_w :
    Watch demoCfgC none c5s =
      (.ok ⟨0, 0⟩,
       { c5s with chans := [[⟨.added, "x"⟩, ⟨.added, "y"⟩]], watchers := [(0, 0)] }) :=
  C5_watch_snapshot demoCfgC none c5s "x" "y" (by rfl)

/-- C7 counterexample: after creating `foo` in namespace `ns1` (and with
no `ns2` directory ever created), `List` scoped to `ns2` does not return
an empty list — `filepath.Walk` fails on the missing directory and the
call returns the `failed walking filepath` error. -/
theorem C7_list_other_namespace_counterexample :
    (Create demoCfgN (some "ns1") "foo" none state0).1 = .ok "foo" ∧
    ListOp demoCfgN (some "ns2") (Create demoCfgN (some "ns1") "foo" none state0).2
      = .error (.walkFailed ["root", "ns2"]) :=
  ⟨rfl, rfl⟩

/-- C7 (amended): namespace isolation holds whenever the requested
namespace's directory exists on disk: if `ns`'s directory exists and no
`.json` file lies under it, `List` scoped to `ns` returns an empty list
and no error — objects in other namespaces are invisible; when the
directory was never created, `List` instead fails with the walk error
(see the counterexample). -/
theorem C7_namespace_isolation {Rec Bytes : Type} (cfg : StoreCfg Rec Bytes)
    (ns : String) (s : State Rec Bytes)
    (hn : cfg.isNamespaced = true)
    (hdir : memPath s.fs.dirs (joinPath cfg.objRootPath [ns]) = true)
    (hempty : filesUnder s.fs.files (joinPath cfg.objRootPath [ns]) = []) :
    ListOp cfg (some ns) s = .ok [] := by
  have hd : objectDirName cfg (some ns) = joinPath cfg.objRootPath [ns] := by
    unfold objectDirName
    rw [hn]
    rfl
  unfold ListOp visitDirRead
  rw [hd, if_pos hdir, hempty]
  rfl

/-- A namespaced demo state: `foo` lives in `ns1`, and the directory for
`ns2` exists but is empty. -/
def c7s : State DRec DBytes :=
  { fs := { files := [(["root", "ns1", "foo.json"], "foo")],
            dirs := [["root"], ["root", "ns1"], ["root", "ns2"]] },
    chans := [], watchers := [] }

/-- Witness for C7 (amended): listing `ns2` — whose directory exists and
holds nothing — returns the empty list although `foo` exists in `ns1`. -/
theorem C7_namespace_isolation_w : ListOp demoCfgN (some "ns2") c7s = .ok [] :=
  C7_namespace_isolation demoCfgN "ns2" c7s rfl (by rfl) (by rfl)

/-- With no namespace in the context, a namespaced store's `nsEnsure`
fails with `ErrNamespaceNotExists`. -/
theorem nsEnsure_noCtx {Rec Bytes : Type} {cfg : StoreCfg Rec Bytes}
    (s : State Rec Bytes) (hn : cfg.isNamespaced = true) :
    nsEnsure cfg none s = .error .errNamespaceNotExists := by
  unfold nsEnsure
  rw [hn]
  rfl

/-- An `updateBody` whose namespace block fails returns that error with
the incoming state. -/
theorem updateBody_nsErr {Rec Bytes : Type} {cfg : StoreCfg Rec Bytes} {ctx : Ctx}
    {name : String} {objInfo : Option Rec → Except String Rec}
    {cv : Option (Ctx → Rec → Option String)}
    {uv : Option (Ctx → Rec → Rec → Option String)}
    {oldObj : Option Rec} {s : State Rec Bytes} {e : Err}
    (h : nsEnsure cfg ctx s = .error e) :
    updateBody cfg ctx name objInfo cv uv oldObj s = (.error e, s) := by
  unfold updateBody
  rw [h]

/-- Lemma: `objectFileName` ignores the namespacing flag when the context
carries no namespace: the empty namespace is dropped by `Join`. -/
theorem objectFileName_noCtx {Rec Bytes : Type} (cfg : StoreCfg Rec Bytes)
    (name : String) :
    objectFileName cfg none name
      = objectFileName { cfg with isNamespaced := false } none name := by
  unfold objectFileName
  by_cases hn : cfg.isNamespaced = true
  · rw [hn]
    rfl
  · rw [Bool.not_eq_true] at hn
    rw [hn]

/-- Lemma: `objectDirName` ignores the namespacing flag when the context carries
no namespace. -/
theorem objectDirName_noCtx {Rec Bytes : Type} (cfg : StoreCfg Rec Bytes) :
    objectDirName cfg none = objectDirName { cfg with isNamespaced := false } none := by
  unfold objectDirName
  by_cases hn : cfg.isNamespaced = true
  · rw [hn]
    show cfg.objRootPath ++ dropEmpty [""] = cfg.objRootPath
    exact List.append_nil _
  · rw [Bool.not_eq_true] at hn
    rw [hn]

/-- Lemma: `Get` with no context namespace behaves as on the cluster-scoped
store. -/
theorem Get_noCtx {Rec Bytes : Type} (cfg : StoreCfg Rec Bytes) (name : String)
    (fs : FS Bytes) :
    Get cfg none name fs = Get { cfg with isNamespaced := false } none name fs := by
  unfold Get readF
  rw [objectFileName_noCtx]

/-- Lemma: `Delete` with no context namespace behaves as on the cluster-scoped
store. -/
theorem Delete_noCtx {Rec Bytes : Type} (cfg : StoreCfg Rec Bytes) (name : String)
    (dv : Option (Ctx → Rec → Option String)) (s : State Rec Bytes) :
    Delete cfg none name dv s
      = Delete { cfg with isNamespaced := false } none name dv s := by
  unfold Delete
  rw [objectFileName_noCtx, Get_noCtx]

/-- Lemma: `List` with no context namespace behaves as on the cluster-scoped
store. -/
theorem ListOp_noCtx {Rec Bytes : Type} (cfg : StoreCfg Rec Bytes)
    (s : State Rec Bytes) :
    ListOp cfg none s = ListOp { cfg with isNamespaced := false } none s := by
  unfold ListOp visitDirRead
  rw [objectDirName_noCtx]

/-- C10 counterexample: on a namespaced store with no namespace in the
context, `Update` of a missing key with `forceAllowCreate = false` fails
with the `Get`'s `NotFound` — not with `ErrNamespaceNotExists` as
claimed, because the namespace check sits after the initial read. -/
theorem C10_update_notFound_counterexample :
    (Update demoCfgN none "foo" (fun _ => .ok "foo") none none false state0).1
      = .error (.notFound "foo") ∧
    Err.notFound "foo" ≠ Err.errNamespaceNotExists :=
  ⟨rfl, by decide⟩

/-- C10 (amended): on a namespaced store whose request context carries no
namespace, `Create` (with passing validation) fails with
`ErrNamespaceNotExists` and no side effect; `Update` does so provided it
reaches the namespace check — i.e. when `forceAllowCreate` is true or
the initial `Get` succeeds — while a missing key with
`forceAllowCreate = false` surfaces the `Get` error instead (see the
counterexample); and `Get`, `Delete`, and `List` do not fail for the
missing namespace: they behave exactly as the cluster-scoped store,
addressing `root/name.json` and walking the root directory. -/
theorem C10_missing_namespace {Rec Bytes : Type} (cfg : StoreCfg Rec Bytes)
    (s : State Rec Bytes) (hn : cfg.isNamespaced = true) :
    (∀ obj cv, (∀ f, cv = some f → f none obj = none) →
      Create cfg none obj cv s = (.error .errNamespaceNotExists, s)) ∧
    (∀ name objInfo cv uv fac,
      (fac = true ∨ ∃ old, Get cfg none name s.fs = .ok old) →
      Update cfg none name objInfo cv uv fac s = (.error .errNamespaceNotExists, s)) ∧
    (∀ name, Get cfg none name s.fs
      = Get { cfg with isNamespaced := false } none name s.fs) ∧
    (∀ name dv, Delete cfg none name dv s
      = Delete { cfg with isNamespaced := false } none name dv s) ∧
    (ListOp cfg none s = ListOp { cfg with isNamespaced := false } none s) := by
  refine ⟨?_, ?_, fun name => Get_noCtx cfg name s.fs,
          fun name dv => Delete_noCtx cfg name dv s, ListOp_noCtx cfg s⟩
  · intro obj cv hcv
    unfold Create
    rw [runValidate1_none hcv, nsEnsure_noCtx s hn]
  · intro name objInfo cv uv fac hreach
    unfold Update
    cases hget : Get cfg none name s.fs with
    | error e =>
      rcases hreach with hfac | ⟨old, hold⟩
      · subst hfac
        dsimp only
        rw [if_pos rfl]
        exact updateBody_nsErr (nsEnsure_noCtx s hn)
      · rw [hget] at hold
        cases hold
    | ok old =>
      dsimp only
      exact updateBody_nsErr (nsEnsure_noCtx s hn)

/-- Witness for C10 (amended): on the namespaced demo store with no
context namespace, `Create` and a forced `Update` fail with
`ErrNamespaceNotExists`, while `Get`, `Delete`, and `List` coincide with
the cluster-scoped behavior. -/
theorem C10_missing_namespace_w :
    Create demoCfgN none "z" none state0 = (.error .errNamespaceNotExists, state0) ∧
    Update demoCfgN none "z" (fun _ => .ok "z") none none true state0
      = (.error .errNamespaceNotExists, state0) ∧
    Get demoCfgN none "x" c9s.fs
      = Get { demoCfgN with isNamespaced := false } none "x" c9s.fs ∧
    Delete demoCfgN none "x" none c9s
      = Delete { demoCfgN with isNamespaced := false } none "x" none c9s ∧
    ListOp demoCfgN none c9s
      = ListOp { demoCfgN with isNamespaced := false } none c9s := by
  obtain ⟨h1, h2, _, _, _⟩ := C10_missing_namespace demoCfgN state0 rfl
  obtain ⟨_, _, h3, h4, h5⟩ := C10_missing_namespace demoCfgN c9s rfl
  exact ⟨h1 "z" none (fun f h => by cases h),
         h2 "z" (fun _ => .ok "z") none none true (Or.inl rfl),
         h3 "x", h4 "x" none, h5⟩

theorem memPath_append {ds es : List Path} {p : Path} :
    memPath (ds ++ es) p = (memPath ds p || memPath es p) := by
  induction ds with
  | nil => rfl
  | cons d ds ih =>
    rw [List.cons_append,
      show memPath (d :: (ds ++ es)) p = if d = p then true else memPath (ds ++ es) p
        from rfl,
      show memPath (d :: ds) p = if d = p then true else memPath ds p from rfl]
    by_cases h : d = p
    · rw [if_pos h, if_pos h]
      rfl
    · rw [if_neg h, if_neg h]
      exact ih

theorem memPath_iff_mem {ds : List Path} {p : Path} : memPath ds p = true ↔ p ∈ ds := by
  induction ds with
  | nil => simp [memPath]
  | cons d ds ih =>
    unfold memPath
    by_cases h : d = p
    · subst h
      simp
    · rw [if_neg h, ih]
      constructor
      · exact fun hm => List.mem_cons_of_mem _ hm
      · intro hm
        rcases List.mem_cons.mp hm with h1 | h1
        · exact absurd h1.symm h
        · exact h1

/-- Every ancestor of a path is at most as long as the path itself. -/
theorem length_le_of_mem_ancestors {d p : Path} (h : p ∈ ancestors d) :
    p.length ≤ d.length := by
  unfold ancestors at h
  rcases List.mem_map.mp h with ⟨i, _, rfl⟩
  rw [List.length_take]
  exact min_le_right _ _

/-- Lemma: `ensureDir` of a strictly shorter directory cannot create anything at
a longer path: a `Stat` that failed before it still fails after it. -/
theorem statExists_ensureDir_longer {Bytes : Type} (fs : FS Bytes) (d p : Path)
    (hlen : d.length < p.length) (h : statExists fs p = false) :
    statExists (ensureDir fs d) p = false := by
  unfold ensureDir
  split
  · exact h
  · unfold statExists at h ⊢
    unfold mkdirAll
    dsimp only
    simp only [Bool.or_eq_false_iff] at h ⊢
    refine ⟨h.1, ?_⟩
    rw [memPath_append]
    simp only [Bool.or_eq_false_iff]
    refine ⟨?_, h.2⟩
    by_contra hc
    rw [Bool.not_eq_false] at hc
    have := length_le_of_mem_ancestors (memPath_iff_mem.mp hc)
    omega

theorem append_json_ne_empty (nm : String) : nm ++ ".json" ≠ "" := by
  intro h
  have h2 : (nm ++ ".json").data = ([] : List Char) := by rw [h]
  rw [String.data_append] at h2
  rcases List.append_eq_nil.mp h2 with ⟨_, h3⟩
  exact absurd h3 (by decide)

/-- In a namespaced store an object file path is strictly longer than its
namespace directory path. -/
theorem objectFileName_longer {Rec Bytes : Type} (cfg : StoreCfg Rec Bytes)
    (ns name : String) (hn : cfg.isNamespaced = true) :
    (joinPath cfg.objRootPath [ns]).length
      < (objectFileName cfg (some ns) name).length := by
  unfold objectFileName joinPath
  rw [hn]
  show (cfg.objRootPath ++ dropEmpty [ns]).length
      < (cfg.objRootPath ++ dropEmpty [ns, name ++ ".json"]).length
  rw [List.length_append, List.length_append]
  have hj := append_json_ne_empty name
  by_cases hns : ns = ""
  · subst hns
    simp [dropEmpty, hj]
  · simp [dropEmpty, hns, hj]

/-- C6 counterexample: on a missing key in a fresh namespaced store, with
a rejecting create-validation callback, `Update(k, f, allowCreate=true)`
does not behave identically to `Create`: both fail with the validation
error, but `Update` has already created the namespace directory (its
namespace block runs before validation) while `Create` validates first
and leaves the directory tree untouched. -/
theorem C6_upsert_divergence_counterexample :
    (Update demoCfgN (some "ns1") "foo" (fun _ => .ok "foo")
        (some (fun _ _ => some "reject")) none true state0).1
      = .error (.validation "reject") ∧
    (Create demoCfgN (some "ns1") "foo"
        (some (fun _ _ => some "reject")) state0).1
      = .error (.validation "reject") ∧
    (Update demoCfgN (some "ns1") "foo" (fun _ => .ok "foo")
        (some (fun _ _ => some "reject")) none true state0).2.fs.dirs
      ≠ (Create demoCfgN (some "ns1") "foo"
          (some (fun _ _ => some "reject")) state0).2.fs.dirs :=
  ⟨rfl, rfl, by decide⟩

/-- C6 (amended): on a key absent from the store (no file or directory at
its path), when the context provides the namespace (if namespaced), the
mutator applied to no old object yields `upd` named like the key, and
create validation accepts `upd`, `Update(k, f, allowCreate=true)` is
extensionally equal to `Create(upd)`: the same result (tagged
`created = true`) and the identical final state, including the write, the
`Added` broadcast, and any error of the shared write path.  (When
validation rejects, the two differ in side effects — see the
counterexample.) -/
theorem C6_upsert_equals_create {Rec Bytes : Type} (cfg : StoreCfg Rec Bytes)
    (ctx : Ctx) (name : String) (objInfo : Option Rec → Except String Rec)
    (cv : Option (Ctx → Rec → Option String))
    (uv : Option (Ctx → Rec → Rec → Option String))
    (s : State Rec Bytes) (upd : Rec)
    (hns : cfg.isNamespaced = true → ∃ ns, ctx = some ns)
    (hmut : objInfo none = .ok upd)
    (hname : cfg.getName upd = name)
    (habs : statExists s.fs (objectFileName cfg ctx name) = false)
    (hcv : ∀ f, cv = some f → f ctx upd = none) :
    Update cfg ctx name objInfo cv uv true s
      = ((Create cfg ctx upd cv s).1.map (fun r => (r, true)),
         (Create cfg ctx upd cv s).2) := by
  have hlk : lookupFile s.fs.files (objectFileName cfg ctx name) = none := by
    unfold statExists at habs
    rcases Bool.or_eq_false_iff.mp habs with ⟨h1, _⟩
    cases hl : lookupFile s.fs.files (objectFileName cfg ctx name) with
    | none => rfl
    | some b =>
      rw [hl] at h1
      cases h1
  have hget : Get cfg ctx name s.fs = .error (.notFound name) := by
    unfold Get readF
    rw [hlk]
  unfold Update
  rw [hget]
  dsimp only
  rw [if_pos rfl]
  unfold updateBody Create createPost
  rw [runValidate1_none hcv]
  cases hnse : nsEnsure cfg ctx s with
  | error e =>
    exfalso
    unfold nsEnsure at hnse
    by_cases hn : cfg.isNamespaced = true
    · rw [if_pos hn] at hnse
      obtain ⟨ns, hctx⟩ := hns hn
      subst hctx
      cases hnse
    · rw [if_neg hn] at hnse
      cases hnse
  | ok s1 =>
    dsimp only
    rw [hmut]
    dsimp only
    rw [runValidate1_none hcv]
    dsimp only
    have hs1 : s1.fs = s.fs ∨
        ∃ ns, ctx = some ns ∧ cfg.isNamespaced = true ∧
          s1 = { s with fs := ensureDir s.fs (joinPath cfg.objRootPath [ns]) } := by
      unfold nsEnsure at hnse
      by_cases hn : cfg.isNamespaced = true
      · rw [if_pos hn] at hnse
        obtain ⟨ns, hctx⟩ := hns hn
        subst hctx
        simp only [Except.ok.injEq] at hnse
        exact Or.inr ⟨ns, rfl, hn, hnse.symm⟩
      · rw [if_neg hn] at hnse
        simp only [Except.ok.injEq] at hnse
        exact Or.inl (by rw [← hnse])
    have hex1 : statExists s1.fs (objectFileName cfg ctx name) = false := by
      rcases hs1 with h | ⟨ns, hctx, hn, hs1⟩
      · rw [h]
        exact habs
      · subst hs1
        subst hctx
        exact statExists_ensureDir_longer s.fs _ _
          (objectFileName_longer cfg ns name hn) habs
    rw [hname, if_neg (by rw [hex1]; exact Bool.false_ne_true)]
    cases hw : write cfg.codec s1.fs (objectFileName cfg ctx name) upd with
    | error e => rfl
    | ok fs1 => rfl

/-- Witness for C6 (amended): upserting `foo` into the empty namespaced
store coincides exactly with creating it. -/
theorem C6_upsert_equals_create_w :
    Update demoCfgN (some "ns1") "foo" (fun _ => .ok "foo") none none true state0
      = ((Create demoCfgN (some "ns1") "foo" none state0).1.map (fun r => (r, true)),
         (Create demoCfgN (some "ns1") "foo" none state0).2) :=
  C6_upsert_equals_create demoCfgN (some "ns1") "foo" (fun _ => .ok "foo")
    none none state0 "foo" (fun _ => ⟨"ns1", rfl⟩) rfl rfl (by rfl)
    (fun f h => by cases h)

/-! ## The C4 trace: subscribe A, subscribe B, stop A, subscribe C,
then create `"x"`. -/

def c4s1 : State DRec DBytes := (Watch demoCfgC none state0).2
def c4s2 : State DRec DBytes := (Watch demoCfgC none c4s1).2
def c4s3 : State DRec DBytes := Stop ⟨0, 0⟩ c4s2
def c4s4 : State DRec DBytes := (Watch demoCfgC none c4s3).2
def c4s5 : State DRec DBytes := (Create demoCfgC none "x" none c4s4).2

/-- C4: the code violates the claim.  `Watch` assigns `id =
len(watchers)`, so after subscribe A (id 0), subscribe B (id 1), and
`Stop` of A only, the registry has one entry and the next `Watch` reuses
id 1: registering C silently overwrites B's registry entry.  B was never
stopped, yet the following successful `Create` broadcast reaches only
C's channel (index 2) while B's channel (index 1) stays empty — a
registered-and-never-stopped subscription misses a broadcast. -/
theorem C4_watch_id_collision_bug :
    (Watch demoCfgC none state0).1 = .ok ⟨0, 0⟩ ∧
    (Watch demoCfgC none c4s1).1 = .ok ⟨1, 1⟩ ∧
    (Watch demoCfgC none c4s3).1 = .ok ⟨1, 2⟩ ∧
    c4s4.watchers = [(1, 2)] ∧
    (Create demoCfgC none "x" none c4s4).1 = .ok "x" ∧
    c4s5.chans = [[], [], [⟨.added, "x"⟩]] :=
  ⟨rfl, rfl, rfl, rfl, rfl, rfl⟩

end JsonfileRest
